import Mathlib

/-!
Verification of the effectify function-contract codec layer
(`src/packages/effectify/src/_internal/codecs/FunctionSchema.ts`) and its
request/response boundary adapter (`webHandler` module and
`src/packages/effectify/src/astro/HttpApi.ts`), as a shallow embedding.

Runtime JavaScript values are modelled by `Value`; JavaScript functions that
may throw are modelled as `Value → Except ParseIssue Value` on the codec side
and with explicit `Except` error channels on the adapter side. Asynchrony is
not observable in the embedding: an awaited promise is its settled value, and
a rejected promise is an `Except.error`.
-/

set_option autoImplicit false

namespace Effectify

/-- Runtime JavaScript data values (the non-function values the codec and the
adapter pass around): strings, numbers, booleans, null, objects as ordered
field lists, and arrays. -/
inductive Value where
  | vStr (s : String)
  | vNum (n : Int)
  | vBool (b : Bool)
  | vNull
  | vObj (fields : List (String × Value))
  | vArr (elems : List Value)

/-- Shape descriptors for contracts, following the closed set the spec fixes
for the codec layer: primitives, optional, array, and structs written as a
shape-level field list (`sNil` ends a struct, `sCons` adds one named field).
These model the `effect` schemas the repository applies `FunctionSchema` to
(`Schema.String`, `Schema.Boolean`, `Schema.Number`, `Schema.Struct`,
`Schema.optional`, `Schema.Array`). -/
inductive Shape where
  | str
  | num
  | bool
  | opt (s : Shape)
  | arr (s : Shape)
  | sNil
  | sCons (name : String) (field : Shape) (rest : Shape)

/-- Parse issues raised by the codec: `shapeMismatch` models an `effect`
`ParseResult.Type` failure with the path to the offending field and the
expected shape versus actual value; `missingField` models a missing
non-optional struct field; `notAFunction` models the
`ParseResult.Type(ast, input, 'Expected a function')` issue produced by
`createFunctionSchemaDecoder` and `createFunctionSchemaEncoder`. -/
inductive ParseIssue where
  | shapeMismatch (path : List String) (expected : Shape) (actual : Value)
  | missingField (path : List String) (name : String)
  | notAFunction (actual : Value) (message : String)

/-- A JavaScript function as the codec observes it: it receives one value and
either returns a value or throws. -/
def JsFun : Type := Value → Except ParseIssue Value

/-- An arbitrary input handed to the codec: either a callable or a
non-function value (the `typeof input !== 'function'` distinction). -/
inductive CodecInput where
  | fn (f : JsFun)
  | val (v : Value)

/-- Modelled from the spec: the shape transformation rules of the contract
codec (spec section 4.1 and design note in section 9), standing in for the
`effect` library `Schema` validation that is not part of this repository.
For the closed shape set above both schema directions are structural
validation: the value is checked field by field, recursively through nested
objects and arrays, optional fields pass through unset when absent, a present
field of the wrong type is an error, arrays are validated element-wise with
index-qualified paths, and validation short-circuits on the first failing
path. Returns `none` when the value matches, or the first issue. -/
def checkShape : List String → Shape → Value → Option ParseIssue
  | _, .str, .vStr _ => none
  | path, .str, v => some (.shapeMismatch path .str v)
  | _, .num, .vNum _ => none
  | path, .num, v => some (.shapeMismatch path .num v)
  | _, .bool, .vBool _ => none
  | path, .bool, v => some (.shapeMismatch path .bool v)
  | path, .opt s, v => checkShape path s v
  | path, .arr s, .vArr elems =>
      (elems.enum.filterMap (fun p => checkShape (path ++ [toString p.1]) s p.2)).head?
  | path, .arr s, v => some (.shapeMismatch path (.arr s) v)
  | _, .sNil, .vObj _ => none
  | path, .sNil, v => some (.shapeMismatch path .sNil v)
  | path, .sCons name (.opt fs) rest, .vObj fields =>
      (match List.lookup name fields with
        | none => checkShape path rest (.vObj fields)
        | some fv =>
            (match checkShape (path ++ [name]) fs fv with
              | some e => some e
              | none => checkShape path rest (.vObj fields)))
  | path, .sCons name f rest, .vObj fields =>
      (match List.lookup name fields with
        | none => some (.missingField path name)
        | some fv =>
            (match checkShape (path ++ [name]) f fv with
              | some e => some e
              | none => checkShape path rest (.vObj fields)))
  | path, .sCons name f rest, v => some (.shapeMismatch path (.sCons name f rest) v)

/-- Modelled from the spec: `Schema.decodeSync(schema)` for the closed shape
set, whose transformation is the identity on matching values and which throws
the first parse issue otherwise. -/
def decodeV (schema : Shape) (v : Value) : Except ParseIssue Value :=
  match checkShape [] schema v with
  | some e => .error e
  | none => .ok v

/-- Modelled from the spec: `Schema.encodeSync(schema)`, which for the closed
shape set performs the same structural validation as decoding (the external
and internal representations coincide for these shapes). -/
def encodeV (schema : Shape) (v : Value) : Except ParseIssue Value :=
  match checkShape [] schema v with
  | some e => .error e
  | none => .ok v

/-- The `wrappedFn` built by `createFunctionSchemaDecoder`
(FunctionSchema.ts lines 56-83): encode the arguments with the args schema,
call the original function with the encoded arguments, then decode the result
with the return schema. The `promise` flag selects the async or the sync
branch of the source; both perform the same validation steps, the async one
awaiting the call. -/
def decodeWrappedFn (argsSchema returnSchema : Shape) (promise : Bool) (fn : JsFun) : JsFun :=
  if promise then
    fun args => do
      let encodedArgs ← encodeV argsSchema args
      let result ← fn encodedArgs
      decodeV returnSchema result
  else
    fun args => do
      let encodedArgs ← encodeV argsSchema args
      let result ← fn encodedArgs
      decodeV returnSchema result

/-- The `wrappedFn` built by `createFunctionSchemaEncoder`
(FunctionSchema.ts lines 146-173): decode the arguments with the args schema,
call the typed function with the decoded arguments, then encode the result
with the return schema. -/
def encodeWrappedFn (argsSchema returnSchema : Shape) (promise : Bool) (fn : JsFun) : JsFun :=
  if promise then
    fun args => do
      let decodedArgs ← decodeV argsSchema args
      let result ← fn decodedArgs
      encodeV returnSchema result
  else
    fun args => do
      let decodedArgs ← decodeV argsSchema args
      let result ← fn decodedArgs
      encodeV returnSchema result

/-- FunctionSchema.ts lines 33-92, `createFunctionSchemaDecoder`: fail with
the `Expected a function` issue when the input is not a function, otherwise
succeed with the wrapped function. -/
def createFunctionSchemaDecoder (argsSchema returnSchema : Shape) (promise : Bool)
    (input : CodecInput) : Except ParseIssue JsFun :=
  match input with
  | .val v => .error (.notAFunction v "Expected a function")
  | .fn f => .ok (decodeWrappedFn argsSchema returnSchema promise f)

/-- FunctionSchema.ts lines 123-182, `createFunctionSchemaEncoder`: fail with
the `Expected a function` issue when the input is not a function, otherwise
succeed with the wrapped function. -/
def createFunctionSchemaEncoder (argsSchema returnSchema : Shape) (promise : Bool)
    (input : CodecInput) : Except ParseIssue JsFun :=
  match input with
  | .val v => .error (.notAFunction v "Expected a function")
  | .fn f => .ok (encodeWrappedFn argsSchema returnSchema promise f)

/-! ### String operations used by the adapter

The source uses the JavaScript operations `String.prototype.startsWith`,
`String.prototype.includes` and `String.prototype.replace` (with the global
pattern `/%40/g`). They are modelled on the character lists underlying Lean
strings so that they compute by plain reduction. -/

/-- JavaScript `s.startsWith(pre)`. -/
def strStartsWith (s pre : String) : Bool := pre.data.isPrefixOf s.data

/-- Helper for `strIncludes`: does `pat` occur as a contiguous subsequence? -/
def listContainsSeq (pat : List Char) : List Char → Bool
  | [] => pat.isEmpty
  | c :: rest => pat.isPrefixOf (c :: rest) || listContainsSeq pat rest

/-- JavaScript `s.includes(pat)`. -/
def strIncludes (s pat : String) : Bool := listContainsSeq pat.data s.data

/-- The character-level replacement performed by `pathname.replace(/%40/g, '@')`:
each occurrence of `%40` becomes `@`, scanning left to right. -/
def decodePercent40 : List Char → List Char
  | '%' :: '4' :: '0' :: rest => '@' :: decodePercent40 rest
  | c :: rest => c :: decodePercent40 rest
  | [] => []

/-- JavaScript `s.replace(/%40/g, '@')`. -/
def replacePercent40 (s : String) : String := ⟨decodePercent40 s.data⟩

/-! ### The web-handler adapter (`webHandler` module bundled into
`src/packages/effectify/tsdown.config.ts`) -/

/-- Modelled from the spec: a parsed WHATWG URL as `new URL(...)` produces it,
holding `protocol` (with trailing colon), `host` (authority with optional
port), `pathname`, `search` (empty or starting with a question mark) and
`hash` (empty or starting with a number sign). The URL parser itself is
library code outside this repository; the boundary request carries its
original URL already in parsed form. -/
structure Url where
  protocol : String
  host : String
  pathname : String
  search : String
  hash : String

/-- Serialization of a parsed URL, the string JavaScript reports as the
`url`/`href` of a request. -/
def Url.href (u : Url) : String :=
  u.protocol ++ "//" ++ u.host ++ u.pathname ++ u.search ++ u.hash

/-- Lower-casing of a string, character by character (JavaScript header
names are compared case-insensitively). -/
def strLower (s : String) : String := ⟨s.data.map Char.toLower⟩

/-- JavaScript `Headers`: an ordered multimap whose `get` is
case-insensitive on names. -/
structure HeadersM where
  entries : List (String × String)

/-- JavaScript `headers.get(name)`: the first entry whose name matches up to
case, or null. -/
def HeadersM.get (h : HeadersM) (name : String) : Option String :=
  (h.entries.find? (fun e => strLower e.1 == strLower name)).map (fun e => e.2)

/-- The failure of reading the request body (`RequestError` from the
platform library): only the fields the adapter forwards are modelled. -/
structure RequestErr where
  description : Option String
  cause : Option Value

/-- The boundary request (`HttpServerRequest`): method, the boundary path or
URL as a string, raw headers, the original URL of the server (modelled in
parsed form), and the effect that reads the raw byte body (`arrayBuffer`),
which either yields the bytes or fails with a `RequestError`. -/
structure HttpServerRequest where
  url : String
  method : String
  headers : List (String × String)
  originalUrl : Url
  arrayBuffer : Except RequestErr (List Nat)

/-- The adapter error (`WebHandlerError`, tsdown.config.ts lines 27-31): the
offending boundary request, an optional human description and an optional
underlying cause. -/
structure WebHandlerError where
  request : HttpServerRequest
  description : Option String
  cause : Option Value

/-- The standard web `Request` built by `ServerRequestToRequest`: absolute
URL string, method, headers, the literal redirect mode `manual`, and an
optional byte body (`null` becomes `none`, a `Uint8Array` becomes `some`). -/
structure StdRequest where
  url : String
  method : String
  headers : HeadersM
  redirect : String
  body : Option (List Nat)

/-- A standard web `Response` restricted to the fields the claims observe:
status code and body text. -/
structure ResponseM where
  status : Nat
  body : String

/-- tsdown.config.ts lines 36-58, `processUrl`: prefer the `host` header over
the authority of the original URL and a non-empty `x-forwarded-proto` header
over its scheme; a boundary path already starting with `http://` or
`https://` is used verbatim, otherwise `protocol//host/path` is composed with
exactly one separating slash. The only throwing step in the source is URL
parsing of `originalUrl`, which the parsed-form model renders total. -/
def processUrl (headers : HeadersM) (req : HttpServerRequest) :
    Except WebHandlerError String :=
  let origin := req.originalUrl
  let host := (headers.get "host").getD origin.host
  let protocol :=
    match headers.get "x-forwarded-proto" with
    | some p => if p = "" then origin.protocol else p ++ ":"
    | none => origin.protocol
  let url :=
    if strStartsWith req.url "http://" || strStartsWith req.url "https://" then req.url
    else protocol ++ "//" ++ host ++ (if strStartsWith req.url "/" then req.url else "/" ++ req.url)
  .ok url

/-- tsdown.config.ts lines 63-88, `ServerRequestToRequest`: build headers,
resolve the URL, then attach a body only for methods other than `GET` and
`HEAD` — the raw bytes verbatim when non-empty, an explicit zero-length
buffer when empty — and construct the standard request with redirect mode
`manual`. A `RequestError` from reading the body is converted to a
`WebHandlerError`. -/
def ServerRequestToRequest (originalRequest : HttpServerRequest) :
    Except WebHandlerError StdRequest :=
  let headers := HeadersM.mk originalRequest.headers
  match processUrl headers originalRequest with
  | .error e => .error e
  | .ok url =>
    match
      (if originalRequest.method != "GET" && originalRequest.method != "HEAD" then
        match originalRequest.arrayBuffer with
        | .error e =>
            Except.error
              { request := originalRequest, description := e.description, cause := e.cause }
        | .ok arrayBuffer =>
            Except.ok (if arrayBuffer.length > 0 then some arrayBuffer else some ([] : List Nat))
      else Except.ok none) with
    | .error e => .error e
    | .ok bodyInit =>
        .ok { url := url, method := originalRequest.method, headers := headers,
              redirect := "manual", body := bodyInit }

/-- tsdown.config.ts lines 116-134, `tryWebHandler`: convert the boundary
request, invoke the handler on the standard request, and wrap anything the
handler throws (or its promise rejects with) into a `WebHandlerError` whose
description is the request-processing message and whose cause is the thrown
value. -/
def tryWebHandler (handler : StdRequest → Except Value ResponseM)
    (request : HttpServerRequest) : Except WebHandlerError ResponseM :=
  match ServerRequestToRequest request with
  | .error e => .error e
  | .ok webHandlerRequest =>
    match handler webHandlerRequest with
    | .ok response => .ok response
    | .error cause =>
        .error { request := request,
                 description := some "An error occurred while processing the request",
                 cause := some cause }

/-! ### The Astro boundary endpoint (`src/packages/effectify/src/astro/HttpApi.ts`) -/

/-- The inbound web `Request` as the Astro endpoint sees it. Its URL is held
in parsed form, since `decodeRequestUrl` immediately parses `request.url`
with `new URL`; the string the source inspects is `Request.urlString`. -/
structure Request where
  url : Url
  method : String
  headers : List (String × String)
  body : Option (List Nat)

/-- JavaScript `request.url`, the serialized URL string. -/
def Request.urlString (r : Request) : String := r.url.href

/-- HttpApi.ts lines 21-26, `decodeRequestUrl`: parse the URL, replace every
`%40` in the pathname by `@`, and rebuild the request from the new URL and
the old request (method, headers and body are taken over unchanged). -/
def decodeRequestUrl (request : Request) : Request :=
  { request with
    url := { request.url with pathname := replacePercent40 request.url.pathname } }

/-- The Astro `APIContext`, restricted to its mutable `request` slot. -/
structure APIContext where
  request : Request

/-- HttpApi.ts lines 43-50: the request the handler receives — decoded when
the URL string contains the substring `/%40`, unchanged otherwise. -/
def endpointRequest (context : APIContext) : Request :=
  if strIncludes context.request.urlString "/%40" then decodeRequestUrl context.request
  else context.request

/-- HttpApi.ts lines 36-63, `buildEndpoint`: compute the (possibly decoded)
request, store it back into the context request slot, invoke the handler on
it, and turn any thrown error into a 500 response with body
`Internal Server Error` instead of propagating the exception. The result
pairs the response with the mutated context. -/
def buildEndpoint (handler : Request → Except Value ResponseM)
    (context : APIContext) : ResponseM × APIContext :=
  let request := endpointRequest context
  let handled := { context with request := request }
  match handler request with
  | .ok response => (response, handled)
  | .error _error => ({ status := 500, body := "Internal Server Error" }, handled)

/-! ### SIGTERM disposer registry (HttpApi.ts lines 65-85) -/

/-- A disposer: invoking it yields the settled outcome of the promise it
returns — fulfilled (`Except.ok`) or rejected (`Except.error`). -/
def Disposer : Type := Unit → Except Value Unit

/-- The module-level mutable state of HttpApi.ts: the append-only disposer
array `sigtermDisposers`, the `sigtermBound` flag, and the number of
`process.on` SIGTERM listener installations performed so far. -/
structure SigtermState where
  sigtermDisposers : List Disposer
  sigtermBound : Bool
  listenerCount : Nat

/-- Module load state: no disposers, listener not yet bound. -/
def initialSigtermState : SigtermState :=
  { sigtermDisposers := [], sigtermBound := false, listenerCount := 0 }

/-- HttpApi.ts lines 75-85, `registerSigterm`: push the disposer, then — only
when not already bound — set the flag and install the single SIGTERM
listener (the process object is taken to exist). -/
def registerSigterm (dispose : Disposer) (st : SigtermState) : SigtermState :=
  let pushed := { st with sigtermDisposers := st.sigtermDisposers ++ [dispose] }
  if pushed.sigtermBound then pushed
  else { pushed with sigtermBound := true, listenerCount := pushed.listenerCount + 1 }

/-- Registering a whole list of disposers in order, starting from module
load state. -/
def registerAll (disposers : List Disposer) : SigtermState :=
  disposers.foldl (fun st d => registerSigterm d st) initialSigtermState

/-- Whether a settled disposer outcome is a rejection. -/
def isRejected : Except Value Unit → Bool
  | .error _ => true
  | .ok _ => false

/-- The outcomes `Promise.allSettled(sigtermDisposers.map((d) => d()))`
collects in the SIGTERM listener: every registered disposer is run and
awaited to settlement. -/
def sigtermResults (st : SigtermState) : List (Except Value Unit) :=
  st.sigtermDisposers.map (fun d => d ())

/-- HttpApi.ts lines 80-83: the exit code passed to `process.exit` — 1 when
some disposer rejected, 0 when all fulfilled. -/
def sigtermExitCode (st : SigtermState) : Nat :=
  if (sigtermResults st).any isRejected then 1 else 0

/-! ### Concrete codec scenario (spec section 8, FunctionSchema example) -/

/-- The login contract argument shape:
a struct with string fields `username` and `password`. -/
def loginArgsShape : Shape := .sCons "username" .str (.sCons "password" .str .sNil)

/-- The raw async login function of the scenario:
it resolves with whether `username` is `admin` and `password` is `123`. -/
def rawLogin : JsFun := fun data =>
  match data with
  | .vObj fields =>
      (match List.lookup "username" fields, List.lookup "password" fields with
        | some (.vStr u), some (.vStr p) => .ok (.vBool (u == "admin" && p == "123"))
        | _, _ => .ok (.vBool false))
  | _ => .ok (.vBool false)

/-- Valid credentials. -/
def loginGoodArgs : Value := .vObj [("username", .vStr "admin"), ("password", .vStr "123")]

/-- Well-shaped but wrong credentials. -/
def loginWrongArgs : Value := .vObj [("username", .vStr "x"), ("password", .vStr "y")]

/-- Ill-shaped arguments: `username` is a number. -/
def loginBadArgs : Value := .vObj [("username", .vNum 123), ("password", .vStr "y")]

/-- C1: applying the codec decoder or encoder to any non-function value fails
with the NotAFunction parse issue (the message states a function was
expected); no wrapped function is returned and, the input being a
non-function, nothing is invoked. -/
theorem decode_encode_fail_notAFunction (argsSchema returnSchema : Shape)
    (promise : Bool) (v : Value) :
    createFunctionSchemaDecoder argsSchema returnSchema promise (.val v)
        = .error (.notAFunction v "Expected a function")
    ∧ createFunctionSchemaEncoder argsSchema returnSchema promise (.val v)
        = .error (.notAFunction v "Expected a function") :=
  ⟨rfl, rfl⟩

/-- C2: for the contract with argument shape
a struct of string fields `username` and `password` and boolean return shape,
decoding the raw async login function yields the wrapper; the wrapper returns
true on the admin credentials, false on wrong credentials, and on a numeric
`username` it fails with a ShapeMismatch at path `username` — for an
arbitrary function in place of the raw one, showing the raw function is never
invoked on the ill-shaped input. -/
theorem functionSchema_login_scenario :
    createFunctionSchemaDecoder loginArgsShape .bool true (.fn rawLogin)
        = .ok (decodeWrappedFn loginArgsShape .bool true rawLogin)
    ∧ decodeWrappedFn loginArgsShape .bool true rawLogin loginGoodArgs = .ok (.vBool true)
    ∧ decodeWrappedFn loginArgsShape .bool true rawLogin loginWrongArgs = .ok (.vBool false)
    ∧ (∀ f : JsFun, decodeWrappedFn loginArgsShape .bool true f loginBadArgs
        = .error (.shapeMismatch ["username"] .str (.vNum 123))) :=
  ⟨rfl, rfl, rfl, fun _ => rfl⟩

/-- A raw function that ignores its argument and resolves with the number 0,
which matches no boolean return shape. -/
def roundTripRaw : JsFun := fun _ => .ok (.vNum 0)

/-- C3 counterexample: with the contract of string argument shape and boolean
return shape and a callable raw function that resolves with the number 0, the
argument `x` is valid under the argument shape, yet the encode-after-decode
composite fails with a ShapeMismatch while the raw function returns 0 — the
two are not observably equal. -/
theorem roundTrip_counterexample :
    createFunctionSchemaDecoder .str .bool true (.fn roundTripRaw)
        = .ok (decodeWrappedFn .str .bool true roundTripRaw)
    ∧ createFunctionSchemaEncoder .str .bool true
        (.fn (decodeWrappedFn .str .bool true roundTripRaw))
        = .ok (encodeWrappedFn .str .bool true (decodeWrappedFn .str .bool true roundTripRaw))
    ∧ checkShape [] .str (.vStr "x") = none
    ∧ roundTripRaw (.vStr "x") = .ok (.vNum 0)
    ∧ encodeWrappedFn .str .bool true (decodeWrappedFn .str .bool true roundTripRaw) (.vStr "x")
        = .error (.shapeMismatch [] .bool (.vNum 0))
    ∧ encodeWrappedFn .str .bool true (decodeWrappedFn .str .bool true roundTripRaw) (.vStr "x")
        ≠ roundTripRaw (.vStr "x") :=
  ⟨rfl, rfl, rfl, rfl, rfl, fun h => nomatch h⟩

/-- C3 amended: for every contract, direction flag and callable raw function,
the encode-after-decode composite agrees with calling the raw function
directly on every argument valid under the argument shape, provided the value
the raw function resolves with is itself valid under the return shape (a
rejection of the raw function propagates unchanged either way). -/
theorem roundTrip_encode_decode (argsSchema returnSchema : Shape) (promise : Bool)
    (raw : JsFun) (args : Value) (wD wE : JsFun)
    (hD : createFunctionSchemaDecoder argsSchema returnSchema promise (.fn raw) = .ok wD)
    (hE : createFunctionSchemaEncoder argsSchema returnSchema promise (.fn wD) = .ok wE)
    (hargs : checkShape [] argsSchema args = none)
    (hret : ∀ r, raw args = .ok r → checkShape [] returnSchema r = none) :
    wE args = raw args := by
  simp only [createFunctionSchemaDecoder, Except.ok.injEq] at hD
  simp only [createFunctionSchemaEncoder, Except.ok.injEq] at hE
  subst hD
  subst hE
  cases hraw : raw args with
  | error e =>
      cases promise <;>
        simp [decodeWrappedFn, encodeWrappedFn, decodeV, encodeV, bind, Except.bind,
          hargs, hraw]
  | ok r =>
      have hr := hret r hraw
      cases promise <;>
        simp [decodeWrappedFn, encodeWrappedFn, decodeV, encodeV, bind, Except.bind,
          hargs, hraw, hr]

/-- A raw function resolving with true, valid under the boolean return
shape. -/
def roundTripGoodRaw : JsFun := fun _ => .ok (.vBool true)

/-- Witness for the amended round-trip theorem at the string-to-boolean
contract, the constant-true raw function and the valid argument `a`. -/
theorem roundTrip_encode_decode_witness :
    encodeWrappedFn .str .bool true (decodeWrappedFn .str .bool true roundTripGoodRaw) (.vStr "a")
      = roundTripGoodRaw (.vStr "a") :=
  roundTrip_encode_decode .str .bool true roundTripGoodRaw (.vStr "a") _ _ rfl rfl rfl
    (fun r hr => by injection hr with h; subst h; rfl)

/-! ### Adapter theorems -/

/-- C4: a handler that throws during invocation makes `tryWebHandler` fail
with the `WebHandlerError` carrying the request-processing description and
the thrown value as cause, and `buildEndpoint` converts any handler failure
into a 500 response whose body is exactly the text Internal Server Error. -/
theorem handler_throw_wrapped_and_500
    (handler : StdRequest → Except Value ResponseM) (request : HttpServerRequest)
    (webReq : StdRequest) (cause : Value)
    (hok : ServerRequestToRequest request = .ok webReq)
    (hthrow : handler webReq = .error cause)
    (ahandler : Request → Except Value ResponseM) (context : APIContext) (acause : Value)
    (athrow : ahandler (endpointRequest context) = .error acause) :
    tryWebHandler handler request
      = .error { request := request,
                 description := some "An error occurred while processing the request",
                 cause := some cause }
    ∧ (buildEndpoint ahandler context).1
      = { status := 500, body := "Internal Server Error" } := by
  constructor
  · simp [tryWebHandler, hok, hthrow]
  · simp [buildEndpoint, athrow]

/-- A boundary GET request whose reported raw byte body is nonetheless
non-empty. -/
def getWithBodyRequest : HttpServerRequest :=
  { url := "/t", method := "GET", headers := [],
    originalUrl := { protocol := "http:", host := "localhost:3000",
                     pathname := "/", search := "", hash := "" },
    arrayBuffer := .ok [1, 2, 3] }

/-- The standard request `ServerRequestToRequest` produces for
`getWithBodyRequest`. -/
def getWithBodyStd : StdRequest :=
  { url := "http://localhost:3000/t", method := "GET", headers := ⟨[]⟩,
    redirect := "manual", body := none }

/-- A handler for the standard request side that always throws. -/
def throwingStdHandler : StdRequest → Except Value ResponseM :=
  fun _ => .error (.vStr "boom")

/-- A boundary-endpoint handler that always rejects. -/
def throwingAstroHandler : Request → Except Value ResponseM :=
  fun _ => .error (.vStr "handler error")

/-- An Astro context holding a plain request without percent-encoding. -/
def plainAstroContext : APIContext :=
  { request := { url := { protocol := "http:", host := "localhost",
                          pathname := "/test", search := "", hash := "" },
                 method := "GET", headers := [], body := none } }

/-- Witness for C4 at a concrete request, a throwing standard handler and a
rejecting endpoint handler. -/
theorem handler_throw_wrapped_and_500_witness :
    tryWebHandler throwingStdHandler getWithBodyRequest
      = .error { request := getWithBodyRequest,
                 description := some "An error occurred while processing the request",
                 cause := some (.vStr "boom") }
    ∧ (buildEndpoint throwingAstroHandler plainAstroContext).1
      = { status := 500, body := "Internal Server Error" } :=
  handler_throw_wrapped_and_500 throwingStdHandler getWithBodyRequest getWithBodyStd
    (.vStr "boom") rfl rfl throwingAstroHandler plainAstroContext (.vStr "handler error") rfl

/-- Headers carrying only a forwarded-protocol entry. -/
def forwardedHeaders : HeadersM := ⟨[("x-forwarded-proto", "https")]⟩

/-- A boundary request whose path is already an absolute http URL. -/
def absoluteUrlRequest : HttpServerRequest :=
  { url := "http://other.example/path", method := "GET",
    headers := [("x-forwarded-proto", "https")],
    originalUrl := { protocol := "http:", host := "localhost:3000",
                     pathname := "/", search := "", hash := "" },
    arrayBuffer := .ok [] }

/-- C5 counterexample: the header `x-forwarded-proto: https` is present, yet
because the boundary path is already absolute it is used verbatim and the
resolved URL begins with `http://`, not `https://`. -/
theorem processUrl_forwarded_proto_counterexample :
    forwardedHeaders.get "x-forwarded-proto" = some "https"
    ∧ processUrl forwardedHeaders absoluteUrlRequest = .ok "http://other.example/path"
    ∧ strStartsWith "http://other.example/path" "https://" = false := by
  refine ⟨by decide, rfl, by decide⟩

/-- A string beginning with itself followed by anything. -/
theorem strStartsWith_append (p t : String) : strStartsWith (p ++ t) p = true := by
  simp [strStartsWith, String.data_append]

/-- C5 amended: with headers containing exactly `host: example.com` and
boundary path `/api/test` under the default scheme the resolved URL is
exactly `http://example.com/api/test`; and whenever `x-forwarded-proto:
https` is present and the boundary path is not itself an absolute URL, the
resolved URL begins with `https://` regardless of the scheme of the original
URL. -/
theorem processUrl_resolution (req1 req2 : HttpServerRequest) (hdrs2 : HeadersM)
    (h1u : req1.url = "/api/test")
    (h1p : req1.originalUrl.protocol = "http:")
    (h2 : hdrs2.get "x-forwarded-proto" = some "https")
    (h2a : strStartsWith req2.url "http://" = false)
    (h2b : strStartsWith req2.url "https://" = false) :
    processUrl ⟨[("host", "example.com")]⟩ req1 = .ok "http://example.com/api/test"
    ∧ ∃ s, processUrl hdrs2 req2 = .ok s ∧ strStartsWith s "https://" = true := by
  constructor
  · simp only [processUrl, HeadersM.get, h1u, h1p]
    exact rfl
  · refine ⟨"https://" ++ (((hdrs2.get "host").getD req2.originalUrl.host)
      ++ (if strStartsWith req2.url "/" then req2.url else "/" ++ req2.url)), ?_, ?_⟩
    · simp only [processUrl, h2, h2a, h2b, Bool.or_self, Bool.false_eq_true, if_false,
        reduceIte, Except.ok.injEq]
      show ("https://" ++ ((hdrs2.get "host").getD req2.originalUrl.host))
          ++ (if strStartsWith req2.url "/" then req2.url else "/" ++ req2.url) = _
      rw [String.append_assoc]
    · exact strStartsWith_append "https://" _

/-- A boundary request with a relative path, used to instantiate the
forwarded-protocol half of the amended C5. -/
def relativeUrlRequest : HttpServerRequest :=
  { url := "/api/test", method := "GET", headers := [],
    originalUrl := { protocol := "http:", host := "localhost:3000",
                     pathname := "/", search := "", hash := "" },
    arrayBuffer := .ok [] }

/-- Witness for the amended C5 at concrete requests and headers. -/
theorem processUrl_resolution_witness :
    processUrl ⟨[("host", "example.com")]⟩ relativeUrlRequest
        = .ok "http://example.com/api/test"
    ∧ ∃ s, processUrl forwardedHeaders relativeUrlRequest = .ok s
        ∧ strStartsWith s "https://" = true :=
  processUrl_resolution relativeUrlRequest relativeUrlRequest forwardedHeaders
    rfl rfl rfl (by decide) (by decide)

/-- C6: for every boundary request whose method is GET or HEAD, the standard
request produced by `ServerRequestToRequest` carries no body, even when the
boundary reports a non-empty raw byte body. -/
theorem get_head_request_has_no_body (req : HttpServerRequest)
    (h : req.method = "GET" ∨ req.method = "HEAD")
    (r : StdRequest) (hr : ServerRequestToRequest req = .ok r) : r.body = none := by
  have hcond : (req.method != "GET" && req.method != "HEAD") = false := by
    rcases h with h | h <;> simp [h]
  simp only [ServerRequestToRequest, processUrl, hcond, Bool.false_eq_true, if_false,
    Except.ok.injEq] at hr
  rw [← hr]

/-- Witness for C6: a GET request reporting the raw bytes 1, 2, 3 still maps
to a standard request with no body. -/
theorem get_head_request_has_no_body_witness : getWithBodyStd.body = none :=
  get_head_request_has_no_body getWithBodyRequest (Or.inl rfl) getWithBodyStd rfl

/-- C7: for every boundary request whose method is neither GET nor HEAD,
`ServerRequestToRequest` attaches a body equal to the raw bytes — verbatim
when non-empty, and an explicit zero-length buffer rather than a null body
when empty. -/
theorem non_get_request_body (req : HttpServerRequest) (bytes : List Nat)
    (h1 : ¬ req.method = "GET") (h2 : ¬ req.method = "HEAD")
    (hb : req.arrayBuffer = .ok bytes)
    (r : StdRequest) (hr : ServerRequestToRequest req = .ok r) :
    r.body = some bytes ∧ r.body ≠ none := by
  have hcond : (req.method != "GET" && req.method != "HEAD") = true := by
    simp [h1, h2]
  have hbody : (if bytes.length > 0 then some bytes else some ([] : List Nat))
      = some bytes := by
    cases bytes <;> simp
  simp only [ServerRequestToRequest, processUrl, hcond, if_true, hb, hbody,
    Except.ok.injEq] at hr
  rw [← hr]
  exact ⟨rfl, by simp⟩

/-- A POST request whose raw byte body is empty. -/
def postEmptyRequest : HttpServerRequest :=
  { url := "/t", method := "POST", headers := [],
    originalUrl := { protocol := "http:", host := "localhost:3000",
                     pathname := "/", search := "", hash := "" },
    arrayBuffer := .ok [] }

/-- The standard request for `postEmptyRequest`: an explicit empty buffer
body, not a null one. -/
def postEmptyStd : StdRequest :=
  { url := "http://localhost:3000/t", method := "POST", headers := ⟨[]⟩,
    redirect := "manual", body := some [] }

/-- Witness for C7 at a POST request with an empty raw body. -/
theorem non_get_request_body_witness :
    postEmptyStd.body = some [] ∧ postEmptyStd.body ≠ none :=
  non_get_request_body postEmptyRequest [] (by decide) (by decide) rfl postEmptyStd rfl

/-! ### Astro endpoint theorems -/

/-- A handler that echoes the pathname it receives in the response body. -/
def pathEchoHandler : Request → Except Value ResponseM :=
  fun r => .ok { status := 200, body := r.url.pathname }

/-- A context whose request path contains `%40` not preceded by a slash. -/
def percent40Context : APIContext :=
  { request := { url := { protocol := "http:", host := "localhost",
                          pathname := "/user%40host", search := "", hash := "" },
                 method := "GET", headers := [], body := none } }

/-- C8 counterexample: the path `/user%40host` contains the percent-encoded
sequence `%40`, and decoding it would give `/user@host`; yet the endpoint,
which only reacts to the marker `/%40`, hands the handler the path still
percent-encoded. -/
theorem percent40_decode_counterexample :
    strIncludes "/user%40host" "%40" = true
    ∧ replacePercent40 "/user%40host" = "/user@host"
    ∧ strIncludes percent40Context.request.urlString "/%40" = false
    ∧ (buildEndpoint pathEchoHandler percent40Context).1
        = { status := 200, body := "/user%40host" }
    ∧ "/user%40host" ≠ "/user@host" := by
  exact ⟨by decide, by decide, by decide, rfl, by decide⟩

/-- C8 amended: the endpoint decodes the path exactly when the full request
URL string contains the substring `/%40` (a slash directly followed by the
encoded `@`); in that case the handler receives the request with every `%40`
of the path replaced by `@`, the context request slot is updated to the same
decoded request, and the handler response passes through. -/
theorem percent40_decode_on_slash_marker
    (handler : Request → Except Value ResponseM) (context : APIContext)
    (h : strIncludes context.request.urlString "/%40" = true) :
    endpointRequest context = decodeRequestUrl context.request
    ∧ (endpointRequest context).url.pathname
        = replacePercent40 context.request.url.pathname
    ∧ (buildEndpoint handler context).2.request = decodeRequestUrl context.request
    ∧ (∀ resp, handler (decodeRequestUrl context.request) = .ok resp →
        (buildEndpoint handler context).1 = resp) := by
  have he : endpointRequest context = decodeRequestUrl context.request := by
    simp [endpointRequest, h]
  refine ⟨he, by rw [he]; rfl, ?_, ?_⟩
  · cases hh : handler (decodeRequestUrl context.request) <;>
      simp [buildEndpoint, he, hh]
  · intro resp hresp
    simp [buildEndpoint, he, hresp]

/-- A context whose request path is `/%40scope/package`. -/
def scopeContext : APIContext :=
  { request := { url := { protocol := "http:", host := "localhost",
                          pathname := "/%40scope/package", search := "", hash := "" },
                 method := "GET", headers := [], body := none } }

/-- Witness for the amended C8: on the path `/%40scope/package` the endpoint
decodes, and the echoing handler observes the path `/@scope/package`. -/
theorem percent40_decode_on_slash_marker_witness :
    (endpointRequest scopeContext = decodeRequestUrl scopeContext.request
    ∧ (endpointRequest scopeContext).url.pathname
        = replacePercent40 scopeContext.request.url.pathname
    ∧ (buildEndpoint pathEchoHandler scopeContext).2.request
        = decodeRequestUrl scopeContext.request
    ∧ (∀ resp, pathEchoHandler (decodeRequestUrl scopeContext.request) = .ok resp →
        (buildEndpoint pathEchoHandler scopeContext).1 = resp))
    ∧ (buildEndpoint pathEchoHandler scopeContext).1
        = { status := 200, body := "/@scope/package" } :=
  ⟨percent40_decode_on_slash_marker pathEchoHandler scopeContext (by decide), rfl⟩

/-- C9 helper: folding `registerSigterm` over a list of disposers from an
arbitrary state appends the disposers in order, leaves the listener bound,
and installs at most one further listener (none when already bound or when
nothing is registered). -/
theorem registerSigterm_foldl (disposers : List Disposer) (st : SigtermState) :
    (disposers.foldl (fun s d => registerSigterm d s) st).sigtermDisposers
        = st.sigtermDisposers ++ disposers
    ∧ (disposers.foldl (fun s d => registerSigterm d s) st).sigtermBound
        = (st.sigtermBound || !disposers.isEmpty)
    ∧ (disposers.foldl (fun s d => registerSigterm d s) st).listenerCount
        = st.listenerCount + (if st.sigtermBound || disposers.isEmpty then 0 else 1) := by
  induction disposers generalizing st with
  | nil => simp
  | cons d ds ih =>
    rw [List.foldl_cons]
    obtain ⟨ih1, ih2, ih3⟩ := ih (registerSigterm d st)
    have r1 : (registerSigterm d st).sigtermDisposers = st.sigtermDisposers ++ [d] := by
      cases hb : st.sigtermBound <;> simp [registerSigterm, hb]
    have r2 : (registerSigterm d st).sigtermBound = true := by
      cases hb : st.sigtermBound <;> simp [registerSigterm, hb]
    have r3 : (registerSigterm d st).listenerCount
        = st.listenerCount + (if st.sigtermBound then 0 else 1) := by
      cases hb : st.sigtermBound <;> simp [registerSigterm, hb]
    refine ⟨?_, ?_, ?_⟩
    · rw [ih1, r1, List.append_assoc]
      rfl
    · rw [ih2, r2]
      simp
    · rw [ih3, r3, r2]
      cases hb : st.sigtermBound <;> simp [hb]

/-- C9: registering any list of disposers records all of them in order while
installing exactly one termination-signal listener (none when the list is
empty); on the termination signal every registered disposer is run and its
settlement collected, and the exit code is 1 exactly when some disposer
rejected and 0 exactly when all fulfilled. -/
theorem sigterm_registry_exit_codes (disposers : List Disposer) :
    (registerAll disposers).sigtermDisposers = disposers
    ∧ (registerAll disposers).listenerCount = (if disposers.isEmpty then 0 else 1)
    ∧ sigtermResults (registerAll disposers) = disposers.map (fun d => d ())
    ∧ (sigtermExitCode (registerAll disposers) = 1
        ↔ ∃ r ∈ sigtermResults (registerAll disposers), isRejected r = true)
    ∧ (sigtermExitCode (registerAll disposers) = 0
        ↔ ∀ r ∈ sigtermResults (registerAll disposers), isRejected r = false) := by
  obtain ⟨h1, _h2, h3⟩ := registerSigterm_foldl disposers initialSigtermState
  have hd : (registerAll disposers).sigtermDisposers = disposers := by
    simpa [registerAll, initialSigtermState] using h1
  have hres : sigtermResults (registerAll disposers) = disposers.map (fun d => d ()) := by
    simp [sigtermResults, hd]
  refine ⟨hd, ?_, hres, ?_, ?_⟩
  · simpa [registerAll, initialSigtermState] using h3
  · cases hany : (sigtermResults (registerAll disposers)).any isRejected <;>
      simp_all [sigtermExitCode, List.any_eq_true, List.any_eq_false]
  · cases hany : (sigtermResults (registerAll disposers)).any isRejected <;>
      simp_all [sigtermExitCode, List.any_eq_true, List.any_eq_false]

/-- C10: `decodeRequestUrl` changes only the pathname of the URL, replacing
every `%40` there by `@`; protocol, host, search, hash, method, headers and
body are returned unchanged — in particular a `%40` in the query string
stays as it was. -/
theorem decodeRequestUrl_frame (request : Request) :
    (decodeRequestUrl request).url.pathname = replacePercent40 request.url.pathname
    ∧ (decodeRequestUrl request).url.protocol = request.url.protocol
    ∧ (decodeRequestUrl request).url.host = request.url.host
    ∧ (decodeRequestUrl request).url.search = request.url.search
    ∧ (decodeRequestUrl request).url.hash = request.url.hash
    ∧ (decodeRequestUrl request).method = request.method
    ∧ (decodeRequestUrl request).headers = request.headers
    ∧ (decodeRequestUrl request).body = request.body
    ∧ strIncludes (decodeRequestUrl request).url.search "%40"
        = strIncludes request.url.search "%40" :=
  ⟨rfl, rfl, rfl, rfl, rfl, rfl, rfl, rfl, rfl⟩

end Effectify
